import Mathlib

/-!
Shallow embedding of the decoding core of `parser.go` from the
`unicode-codepoint` repository: three decoders (UTF-8, UTF-16, UTF-32)
that turn a byte stream into classified `Token`s.

The byte cursor (Go `bufio.Reader`) is modelled as the list of bytes not
yet consumed; a decode step (`parse`) maps this list to a `StepResult`:
the optional `Token`, the optional stream error the Go function returns
(`io.EOF` or `io.ErrUnexpectedEOF`), and the remaining byte list.
Bytes are `Nat`s (< 256 in any real stream); the Go `rune` (int32) is
modelled as `Int`, with the one signedness-relevant conversion
(`rune(uint32)` in the UTF-32 decoder) made explicit in `runeOfUint32`.
-/

namespace UnicodeCodepoint

set_option maxHeartbeats 2000000

/-- Go classification constants from the `iota` block in parser.go. -/
def TypeOk : Nat := 0

/-- Second constant of the `iota` block. -/
def TypeInvalidByteSequence : Nat := 1

/-- Third constant of the `iota` block. -/
def TypeRedundantEncoding : Nat := 2

/-- Fourth constant of the `iota` block. -/
def TypeIncompleteSurrogatePair : Nat := 3

/-- Go `Token` struct: `Rune rune`, `Bytes []byte`, `Type int`.
(`Type` is a reserved word in Lean, hence the lower-case field name). -/
structure Token where
  Rune : Int
  Bytes : List Nat
  type : Nat
deriving Repr, DecidableEq

/-- The two end-of-stream error values the decoders produce:
`io.EOF` and `io.ErrUnexpectedEOF`. -/
inductive StreamError where
  | eof
  | unexpectedEOF
deriving Repr, DecidableEq

/-- Result of one decode step: the Go pair `(*Token, error)` together with
the bytes left unconsumed in the cursor. -/
structure StepResult where
  token : Option Token
  signal : Option StreamError
  rest : List Nat
deriving Repr, DecidableEq

/-- `binary.ByteOrder`: the two byte orders used by `main`. -/
inductive ByteOrder where
  | BigEndian
  | LittleEndian
deriving Repr, DecidableEq

/-- `binary.ByteOrder.Uint16` on two bytes. -/
def ByteOrder.Uint16 (bo : ByteOrder) (b0 b1 : Nat) : Nat :=
  match bo with
  | .BigEndian => b0 <<< 8 ||| b1
  | .LittleEndian => b1 <<< 8 ||| b0

/-- `binary.ByteOrder.Uint32` on four bytes. -/
def ByteOrder.Uint32 (bo : ByteOrder) (b0 b1 b2 b3 : Nat) : Nat :=
  match bo with
  | .BigEndian => b0 <<< 24 ||| b1 <<< 16 ||| b2 <<< 8 ||| b3
  | .LittleEndian => b3 <<< 24 ||| b2 <<< 16 ||| b1 <<< 8 ||| b0

/-- The Go conversion `rune(u)` for `u : uint32`: reinterpret the 32-bit
value as a signed int32 (two's complement). -/
def runeOfUint32 (u : Nat) : Int :=
  if u % 2 ^ 32 < 2 ^ 31 then ((u % 2 ^ 32 : Nat) : Int)
  else ((u % 2 ^ 32 : Nat) : Int) - 2 ^ 32

/-- `utf16Parser.isHighSurrogate`: `0xd800 <= r && r <= 0xdbff`. -/
def isHighSurrogate (r : Nat) : Prop := 0xd800 ≤ r ∧ r ≤ 0xdbff

instance (r : Nat) : Decidable (isHighSurrogate r) :=
  inferInstanceAs (Decidable (_ ∧ _))

/-- `utf16Parser.isLowSurrogate`: `0xdc00 <= r && r <= 0xdfff`. -/
def isLowSurrogate (r : Nat) : Prop := 0xdc00 ≤ r ∧ r ≤ 0xdfff

instance (r : Nat) : Decidable (isLowSurrogate r) :=
  inferInstanceAs (Decidable (_ ∧ _))

/-- `utf8Parser.parse`. Reading one byte consumes the head; `peekByte`
looks at the head without consuming (failing with `io.EOF` on an empty
cursor). Each branch mirrors the corresponding `if`/`return` of the Go
function, including which error value accompanies each returned token. -/
def utf8Parse : List Nat → StepResult
  | [] => ⟨none, some .eof, []⟩
  | b1 :: s1 =>
    if b1 ≤ 0x7f then
      ⟨some ⟨Int.ofNat b1, [b1], TypeOk⟩, none, s1⟩
    else if b1 ≤ 0xbf then
      ⟨some ⟨0, [b1], TypeInvalidByteSequence⟩, none, s1⟩
    else if b1 ≤ 0xdf then
      match s1 with
      | [] => ⟨some ⟨0, [b1], TypeInvalidByteSequence⟩, some .eof, []⟩
      | b2 :: s2 =>
        if b2 &&& 0xc0 = 0x80 then
          let r := (b1 &&& 0x1f) <<< 6 ||| b2 &&& 0x3f
          ⟨some ⟨Int.ofNat r, [b1, b2],
            if r < 0x80 then TypeRedundantEncoding else TypeOk⟩, none, s2⟩
        else
          ⟨some ⟨0, [b1], TypeInvalidByteSequence⟩, none, b2 :: s2⟩
    else if b1 ≤ 0xef then
      match s1 with
      | [] => ⟨some ⟨0, [b1], TypeInvalidByteSequence⟩, some .eof, []⟩
      | b2 :: s2 =>
        if b2 &&& 0xc0 = 0x80 then
          match s2 with
          | [] => ⟨some ⟨0, [b1, b2], TypeInvalidByteSequence⟩, some .eof, []⟩
          | b3 :: s3 =>
            if b3 &&& 0xc0 = 0x80 then
              let r := (b1 &&& 0x0f) <<< 12 ||| (b2 &&& 0x3f) <<< 6 ||| b3 &&& 0x3f
              ⟨some ⟨Int.ofNat r, [b1, b2, b3],
                if r < 0x800 then TypeRedundantEncoding else TypeOk⟩, none, s3⟩
            else
              ⟨some ⟨0, [b1, b2], TypeInvalidByteSequence⟩, none, b3 :: s3⟩
        else
          ⟨some ⟨0, [b1], TypeInvalidByteSequence⟩, none, b2 :: s2⟩
    else if b1 ≤ 0xf7 then
      match s1 with
      | [] => ⟨some ⟨0, [b1], TypeInvalidByteSequence⟩, some .eof, []⟩
      | b2 :: s2 =>
        if b2 &&& 0xc0 = 0x80 then
          match s2 with
          | [] => ⟨some ⟨0, [b1, b2], TypeInvalidByteSequence⟩, some .eof, []⟩
          | b3 :: s3 =>
            if b3 &&& 0xc0 = 0x80 then
              match s3 with
              | [] => ⟨some ⟨0, [b1, b2, b3], TypeInvalidByteSequence⟩, some .eof, []⟩
              | b4 :: s4 =>
                if b4 &&& 0xc0 = 0x80 then
                  let r := (b1 &&& 0x07) <<< 18 ||| (b2 &&& 0x3f) <<< 12 |||
                    (b3 &&& 0x3f) <<< 6 ||| b4 &&& 0x3f
                  ⟨some ⟨Int.ofNat r, [b1, b2, b3, b4],
                    if r < 0x10000 then TypeRedundantEncoding else TypeOk⟩, none, s4⟩
                else
                  ⟨some ⟨0, [b1, b2, b3], TypeInvalidByteSequence⟩, none, b4 :: s4⟩
            else
              ⟨some ⟨0, [b1, b2], TypeInvalidByteSequence⟩, none, b3 :: s3⟩
        else
          ⟨some ⟨0, [b1], TypeInvalidByteSequence⟩, none, b2 :: s2⟩
    else
      ⟨some ⟨0, [b1], TypeInvalidByteSequence⟩, none, s1⟩

/-- `utf16Parser.parse`. `readFull` on a 2-byte buffer: an empty cursor
gives `(nil, io.EOF)`; a single byte is consumed and reported with
`io.ErrUnexpectedEOF`. The look-ahead for the low surrogate is
`bufio.Reader.Peek(2)`, which fails with `io.EOF` when fewer than two
bytes remain (without consuming them). -/
def utf16Parse (bo : ByteOrder) : List Nat → StepResult
  | [] => ⟨none, some .eof, []⟩
  | [b1] => ⟨some ⟨0, [b1], TypeInvalidByteSequence⟩, some .unexpectedEOF, []⟩
  | b1 :: b2 :: s2 =>
    let r1 := bo.Uint16 b1 b2
    if isHighSurrogate r1 then
      match s2 with
      | c1 :: c2 :: s4 =>
        let r2 := bo.Uint16 c1 c2
        if isLowSurrogate r2 then
          let c := ((r1 &&& 0x3ff) <<< 10 ||| r2 &&& 0x3ff) + 0x10000
          ⟨some ⟨Int.ofNat c, [b1, b2, c1, c2], TypeOk⟩, none, s4⟩
        else
          ⟨some ⟨0, [b1, b2], TypeIncompleteSurrogatePair⟩, none, c1 :: c2 :: s4⟩
      | rest2 =>
        ⟨some ⟨0, [b1, b2], TypeIncompleteSurrogatePair⟩, some .eof, rest2⟩
    else if isLowSurrogate r1 then
      ⟨some ⟨0, [b1, b2], TypeIncompleteSurrogatePair⟩, none, s2⟩
    else
      ⟨some ⟨Int.ofNat r1, [b1, b2], TypeOk⟩, none, s2⟩

/-- `utf32Parser.parse`. `readFull` on a 4-byte buffer: empty cursor gives
`(nil, io.EOF)`; 1 to 3 bytes are consumed and reported with
`io.ErrUnexpectedEOF`. The 4-byte value is converted via `rune(uint32)`
before the `r > 0x10ffff` comparison. -/
def utf32Parse (bo : ByteOrder) : List Nat → StepResult
  | [] => ⟨none, some .eof, []⟩
  | b1 :: b2 :: b3 :: b4 :: s4 =>
    let r := runeOfUint32 (bo.Uint32 b1 b2 b3 b4)
    if r > 0x10ffff then
      ⟨some ⟨0, [b1, b2, b3, b4], TypeInvalidByteSequence⟩, none, s4⟩
    else
      ⟨some ⟨r, [b1, b2, b3, b4], TypeOk⟩, none, s4⟩
  | s => ⟨some ⟨0, s, TypeInvalidByteSequence⟩, some .unexpectedEOF, []⟩

/-- The bit assembly the UTF-8 decoder applies to a completed 2-, 3- or
4-byte sequence (the expressions from the three `r := ...` lines of
`utf8Parser.parse`). -/
def utf8Assemble : List Nat → Nat
  | [b1, b2] => (b1 &&& 0x1f) <<< 6 ||| b2 &&& 0x3f
  | [b1, b2, b3] => (b1 &&& 0x0f) <<< 12 ||| (b2 &&& 0x3f) <<< 6 ||| b3 &&& 0x3f
  | [b1, b2, b3, b4] =>
    (b1 &&& 0x07) <<< 18 ||| (b2 &&& 0x3f) <<< 12 ||| (b3 &&& 0x3f) <<< 6 ||| b4 &&& 0x3f
  | _ => 0

/-- C3: a high surrogate followed by a peeked low surrogate: both units are
consumed, the token is `Ok` with scalar `((r1 &&& 0x3ff) <<< 10 ||| r2 &&& 0x3ff) + 0x10000`
and `rawBytes` the four bytes of both units in order. -/
theorem claim_C3_utf16_surrogate_pair (bo : ByteOrder) (b1 b2 c1 c2 : Nat)
    (rest : List Nat)
    (h1 : isHighSurrogate (bo.Uint16 b1 b2)) (h2 : isLowSurrogate (bo.Uint16 c1 c2)) :
    utf16Parse bo (b1 :: b2 :: c1 :: c2 :: rest) =
      ⟨some ⟨Int.ofNat (((bo.Uint16 b1 b2 &&& 0x3ff) <<< 10 |||
          bo.Uint16 c1 c2 &&& 0x3ff) + 0x10000),
        [b1, b2, c1, c2], TypeOk⟩, none, rest⟩ := by
  simp only [utf16Parse, if_pos h1, if_pos h2]

/-- C3 witness: the pair D8 67 DE 3D (big-endian) decodes to U+29E3D. -/
theorem claim_C3_utf16_surrogate_pair_witness :
    utf16Parse ByteOrder.BigEndian [0xd8, 0x67, 0xde, 0x3d] =
      ⟨some ⟨Int.ofNat (((ByteOrder.BigEndian.Uint16 0xd8 0x67 &&& 0x3ff) <<< 10 |||
          ByteOrder.BigEndian.Uint16 0xde 0x3d &&& 0x3ff) + 0x10000),
        [0xd8, 0x67, 0xde, 0x3d], TypeOk⟩, none, []⟩ :=
  claim_C3_utf16_surrogate_pair ByteOrder.BigEndian 0xd8 0x67 0xde 0x3d []
    (by decide) (by decide)

/-- C4: a fully collected UTF-8 multi-byte sequence (leader in the 2-, 3-
or 4-byte range, all continuation bytes with top bits 10) assembles the
scalar from the low-order 5+6, 4+6+6 or 3+6+6+6 bits and is classified
`RedundantEncoding` exactly when the value is below 0x80 / 0x800 /
0x10000, and `Ok` otherwise. -/
theorem claim_C4_utf8_multibyte :
    (∀ b1 b2 : Nat, ∀ rest : List Nat, 0xc0 ≤ b1 → b1 ≤ 0xdf → b2 &&& 0xc0 = 0x80 →
      utf8Parse (b1 :: b2 :: rest) =
        ⟨some ⟨Int.ofNat (utf8Assemble [b1, b2]), [b1, b2],
          if utf8Assemble [b1, b2] < 0x80 then TypeRedundantEncoding else TypeOk⟩,
          none, rest⟩) ∧
    (∀ b1 b2 b3 : Nat, ∀ rest : List Nat, 0xe0 ≤ b1 → b1 ≤ 0xef →
      b2 &&& 0xc0 = 0x80 → b3 &&& 0xc0 = 0x80 →
      utf8Parse (b1 :: b2 :: b3 :: rest) =
        ⟨some ⟨Int.ofNat (utf8Assemble [b1, b2, b3]), [b1, b2, b3],
          if utf8Assemble [b1, b2, b3] < 0x800 then TypeRedundantEncoding else TypeOk⟩,
          none, rest⟩) ∧
    (∀ b1 b2 b3 b4 : Nat, ∀ rest : List Nat, 0xf0 ≤ b1 → b1 ≤ 0xf7 →
      b2 &&& 0xc0 = 0x80 → b3 &&& 0xc0 = 0x80 → b4 &&& 0xc0 = 0x80 →
      utf8Parse (b1 :: b2 :: b3 :: b4 :: rest) =
        ⟨some ⟨Int.ofNat (utf8Assemble [b1, b2, b3, b4]), [b1, b2, b3, b4],
          if utf8Assemble [b1, b2, b3, b4] < 0x10000 then TypeRedundantEncoding else TypeOk⟩,
          none, rest⟩) := by
  refine ⟨?_, ?_, ?_⟩
  · intro b1 b2 rest hlo hhi hc2
    simp only [utf8Parse, utf8Assemble]
    rw [if_neg (by omega), if_neg (by omega), if_pos (by omega), if_pos hc2]
  · intro b1 b2 b3 rest hlo hhi hc2 hc3
    simp only [utf8Parse, utf8Assemble]
    rw [if_neg (by omega), if_neg (by omega), if_neg (by omega), if_pos (by omega),
      if_pos hc2, if_pos hc3]
  · intro b1 b2 b3 b4 rest hlo hhi hc2 hc3 hc4
    simp only [utf8Parse, utf8Assemble]
    rw [if_neg (by omega), if_neg (by omega), if_neg (by omega), if_neg (by omega),
      if_pos (by omega), if_pos hc2, if_pos hc3, if_pos hc4]

/-- C4 witness: C1 A1 is the overlong 2-byte form of U+0061. -/
theorem claim_C4_utf8_multibyte_witness :
    utf8Parse [0xc1, 0xa1] =
      ⟨some ⟨Int.ofNat (utf8Assemble [0xc1, 0xa1]), [0xc1, 0xa1],
        if utf8Assemble [0xc1, 0xa1] < 0x80 then TypeRedundantEncoding else TypeOk⟩,
        none, []⟩ :=
  claim_C4_utf8_multibyte.1 0xc1 0xa1 [] (by decide) (by decide) (by decide)

/-- C5: for UTF-16 and UTF-32, an empty cursor yields no token plus clean
exhaustion (`io.EOF`); a partial final unit (1 byte for UTF-16, 1–3 bytes
for UTF-32) yields `InvalidByteSequence` over the partial bytes plus
`io.ErrUnexpectedEOF`, a signal distinct from clean exhaustion. -/
theorem claim_C5_partial_final_unit :
    (∀ bo : ByteOrder, utf16Parse bo [] = ⟨none, some StreamError.eof, []⟩) ∧
    (∀ bo : ByteOrder, ∀ b : Nat, utf16Parse bo [b] =
      ⟨some ⟨0, [b], TypeInvalidByteSequence⟩, some StreamError.unexpectedEOF, []⟩) ∧
    (∀ bo : ByteOrder, utf32Parse bo [] = ⟨none, some StreamError.eof, []⟩) ∧
    (∀ bo : ByteOrder, ∀ s : List Nat, 1 ≤ s.length → s.length ≤ 3 →
      utf32Parse bo s =
        ⟨some ⟨0, s, TypeInvalidByteSequence⟩, some StreamError.unexpectedEOF, []⟩) ∧
    StreamError.unexpectedEOF ≠ StreamError.eof := by
  refine ⟨fun bo => rfl, fun bo b => rfl, fun bo => rfl, ?_, by decide⟩
  intro bo s h1 h3
  match s with
  | [b1] => rfl
  | [b1, b2] => rfl
  | [b1, b2, b3] => rfl

/-- C5 witness: the single stray byte 0x61 under UTF-32 (big-endian). -/
theorem claim_C5_partial_final_unit_witness :
    utf32Parse ByteOrder.BigEndian [0x61] =
      ⟨some ⟨0, [0x61], TypeInvalidByteSequence⟩, some StreamError.unexpectedEOF, []⟩ :=
  claim_C5_partial_final_unit.2.2.2.1 ByteOrder.BigEndian [0x61] (by decide) (by decide)

/-- C1 (counterexample): the UTF-16 decoder's token for the partial final
unit consisting of the single byte 0x61 carries `rawBytes` of length 1,
which is not a whole multiple of the 2-byte unit size. -/
theorem claim_C1_counterexample :
    (utf16Parse ByteOrder.BigEndian [0x61]).token =
      some ⟨0, [0x61], TypeInvalidByteSequence⟩ ∧
    ¬ 2 ∣ (Token.Bytes ⟨0, [0x61], TypeInvalidByteSequence⟩).length := by
  refine ⟨by decide, by decide⟩

/-- C1 (amended): every returned token has non-empty `rawBytes`; its
length is between 1 and 4 for UTF-8, and a whole multiple of the unit
size (2 or 4 for UTF-16, exactly 4 for UTF-32) for every token except
the one returned for a partial final unit alongside the unexpected-end
signal, whose length is 1 for UTF-16 and 1–3 for UTF-32. -/
theorem claim_C1_rawBytes_lengths :
    (∀ s : List Nat, ∀ t : Token, (utf8Parse s).token = some t →
      t.Bytes ≠ [] ∧ 1 ≤ t.Bytes.length ∧ t.Bytes.length ≤ 4) ∧
    (∀ bo : ByteOrder, ∀ s : List Nat, ∀ t : Token, (utf16Parse bo s).token = some t →
      t.Bytes ≠ [] ∧ (t.Bytes.length = 2 ∨ t.Bytes.length = 4 ∨
        (t.Bytes.length = 1 ∧
          (utf16Parse bo s).signal = some StreamError.unexpectedEOF))) ∧
    (∀ bo : ByteOrder, ∀ s : List Nat, ∀ t : Token, (utf32Parse bo s).token = some t →
      t.Bytes ≠ [] ∧ (t.Bytes.length = 4 ∨
        (1 ≤ t.Bytes.length ∧ t.Bytes.length ≤ 3 ∧
          (utf32Parse bo s).signal = some StreamError.unexpectedEOF))) := by
  refine ⟨?_, ?_, ?_⟩
  · intro s t h
    rcases s with _ | ⟨b1, _ | ⟨b2, _ | ⟨b3, _ | ⟨b4, s4⟩⟩⟩⟩
    · simp [utf8Parse] at h
    all_goals simp only [utf8Parse] at h
    all_goals split_ifs at h <;> obtain rfl := Option.some.inj h <;> simp
  · intro bo s t h
    rcases s with _ | ⟨b1, _ | ⟨b2, _ | ⟨c1, _ | ⟨c2, s4⟩⟩⟩⟩
    · simp [utf16Parse] at h
    all_goals simp only [utf16Parse] at h ⊢
    all_goals (try split_ifs at h ⊢) <;> obtain rfl := Option.some.inj h <;> simp
  · intro bo s t h
    rcases s with _ | ⟨b1, _ | ⟨b2, _ | ⟨b3, _ | ⟨b4, s4⟩⟩⟩⟩
    · simp [utf32Parse] at h
    all_goals simp only [utf32Parse] at h ⊢
    all_goals (try split_ifs at h ⊢) <;> obtain rfl := Option.some.inj h <;> simp

/-- C1 witness: a plain ASCII byte through the UTF-8 decoder. -/
theorem claim_C1_rawBytes_lengths_witness :
    (Token.Bytes ⟨0x61, [0x61], TypeOk⟩) ≠ [] ∧
    1 ≤ (Token.Bytes ⟨0x61, [0x61], TypeOk⟩).length ∧
    (Token.Bytes ⟨0x61, [0x61], TypeOk⟩).length ≤ 4 :=
  claim_C1_rawBytes_lengths.1 [0x61] ⟨0x61, [0x61], TypeOk⟩ (by decide)

/-- C2 (counterexample): for the lone leader C0 at true stream end, the
UTF-8 decoder does return the `InvalidByteSequence` token over [C0], but
the accompanying stream signal is `io.EOF` — the very same value returned
for clean exhaustion on an empty cursor — not a distinct unexpected-end
value; the two situations differ only in whether a token accompanies it. -/
theorem claim_C2_counterexample :
    (utf8Parse [0xc0]).token = some ⟨0, [0xc0], TypeInvalidByteSequence⟩ ∧
    (utf8Parse [0xc0]).signal = some StreamError.eof ∧
    (utf8Parse []).token = none ∧
    (utf8Parse [0xc0]).signal = (utf8Parse []).signal := by
  refine ⟨by decide, by decide, by decide, by decide⟩

/-- C2 (amended): when a UTF-8 multi-byte leader has been consumed and the
stream is exhausted before all expected continuation bytes arrive, the
step returns `InvalidByteSequence` over the bytes accumulated so far
together with an end-of-stream signal — but that signal is `io.EOF`, the
same value as the clean-exhaustion signal (the cases are told apart by
the presence of the token), not a distinct unexpected-end value. -/
theorem claim_C2_utf8_truncated :
    (∀ b1 : Nat, 0xc0 ≤ b1 → b1 ≤ 0xdf →
      utf8Parse [b1] =
        ⟨some ⟨0, [b1], TypeInvalidByteSequence⟩, some StreamError.eof, []⟩) ∧
    (∀ b1 : Nat, ∀ cs : List Nat, 0xe0 ≤ b1 → b1 ≤ 0xef → cs.length < 2 →
      (∀ c ∈ cs, c &&& 0xc0 = 0x80) →
      utf8Parse (b1 :: cs) =
        ⟨some ⟨0, b1 :: cs, TypeInvalidByteSequence⟩, some StreamError.eof, []⟩) ∧
    (∀ b1 : Nat, ∀ cs : List Nat, 0xf0 ≤ b1 → b1 ≤ 0xf7 → cs.length < 3 →
      (∀ c ∈ cs, c &&& 0xc0 = 0x80) →
      utf8Parse (b1 :: cs) =
        ⟨some ⟨0, b1 :: cs, TypeInvalidByteSequence⟩, some StreamError.eof, []⟩) ∧
    (utf8Parse []).signal = some StreamError.eof := by
  refine ⟨?_, ?_, ?_, rfl⟩
  · intro b1 h1 h2
    simp only [utf8Parse]
    rw [if_neg (by omega), if_neg (by omega), if_pos (by omega)]
  · intro b1 cs h1 h2 hlen hc
    rcases cs with _ | ⟨c1, _ | ⟨c2, cs⟩⟩
    · simp only [utf8Parse]
      rw [if_neg (by omega), if_neg (by omega), if_neg (by omega), if_pos (by omega)]
    · have hc1 : c1 &&& 0xc0 = 0x80 := hc c1 (by simp)
      simp only [utf8Parse]
      rw [if_neg (by omega), if_neg (by omega), if_neg (by omega), if_pos (by omega),
        if_pos hc1]
    · simp only [List.length_cons] at hlen
      omega
  · intro b1 cs h1 h2 hlen hc
    rcases cs with _ | ⟨c1, _ | ⟨c2, _ | ⟨c3, cs⟩⟩⟩
    · simp only [utf8Parse]
      rw [if_neg (by omega), if_neg (by omega), if_neg (by omega), if_neg (by omega),
        if_pos (by omega)]
    · have hc1 : c1 &&& 0xc0 = 0x80 := hc c1 (by simp)
      simp only [utf8Parse]
      rw [if_neg (by omega), if_neg (by omega), if_neg (by omega), if_neg (by omega),
        if_pos (by omega), if_pos hc1]
    · have hc1 : c1 &&& 0xc0 = 0x80 := hc c1 (by simp)
      have hc2 : c2 &&& 0xc0 = 0x80 := hc c2 (by simp)
      simp only [utf8Parse]
      rw [if_neg (by omega), if_neg (by omega), if_neg (by omega), if_neg (by omega),
        if_pos (by omega), if_pos hc1, if_pos hc2]
    · simp only [List.length_cons] at hlen
      omega

/-- C2 witness: the truncated 3-byte sequence E0 80 at stream end. -/
theorem claim_C2_utf8_truncated_witness :
    utf8Parse [0xe0, 0x80] =
      ⟨some ⟨0, [0xe0, 0x80], TypeInvalidByteSequence⟩, some StreamError.eof, []⟩ :=
  claim_C2_utf8_truncated.2.1 0xe0 [0x80] (by decide) (by decide) (by decide)
    (by decide)

/-- C7: the UTF-8 decoder checks only structure, not scalar range: the
well-formed 4-byte sequence F7 BF BF BF decodes to `Ok` with scalar
0x1FFFFF (above 0x10FFFF), and the well-formed 3-byte sequence ED A0 80
decodes to `Ok` with scalar 0xD800 (a surrogate). -/
theorem claim_C7_utf8_accepts_out_of_range :
    utf8Parse [0xf7, 0xbf, 0xbf, 0xbf] =
      ⟨some ⟨0x1fffff, [0xf7, 0xbf, 0xbf, 0xbf], TypeOk⟩, none, []⟩ ∧
    (0x10ffff : Int) < 0x1fffff ∧
    utf8Parse [0xed, 0xa0, 0x80] =
      ⟨some ⟨0xd800, [0xed, 0xa0, 0x80], TypeOk⟩, none, []⟩ ∧
    (0xd800 : Int) ≤ 0xd800 ∧ (0xd800 : Int) ≤ 0xdfff := by
  refine ⟨by decide, by decide, by decide, by decide, by decide⟩

/-- C8 (failing input): the UTF-32 decoder converts the 32-bit value
through Go `rune` (int32), so the big-endian bytes FF FF FF FF — value
0xFFFFFFFF, far above 0x10FFFF — wrap to −1, pass the `r > 0x10ffff`
check, and come back classified `Ok` with scalar −1 instead of
`InvalidByteSequence`. -/
theorem claim_C8_utf32_wraparound_bug :
    utf32Parse ByteOrder.BigEndian [0xff, 0xff, 0xff, 0xff] =
      ⟨some ⟨-1, [0xff, 0xff, 0xff, 0xff], TypeOk⟩, none, []⟩ ∧
    (0x10ffff : Nat) < ByteOrder.BigEndian.Uint32 0xff 0xff 0xff 0xff := by
  refine ⟨by decide, by decide⟩

/-- A 16-bit unit read from two genuine bytes is below 2^16. -/
theorem Uint16_lt (bo : ByteOrder) {b0 b1 : Nat} (h0 : b0 < 256) (h1 : b1 < 256) :
    bo.Uint16 b0 b1 < 65536 := by
  have h16 : (65536 : Nat) = 2 ^ 16 := by norm_num
  cases bo <;> simp only [ByteOrder.Uint16] <;> rw [h16] <;>
    exact Nat.or_lt_two_pow (by rw [Nat.shiftLeft_eq]; omega) (by omega)

/-- The surrogate-pair combination always lands in 0x10000–0x10FFFF. -/
theorem pairScalar_bounds (r1 r2 : Nat) :
    0x10000 ≤ ((r1 &&& 0x3ff) <<< 10 ||| r2 &&& 0x3ff) + 0x10000 ∧
    ((r1 &&& 0x3ff) <<< 10 ||| r2 &&& 0x3ff) + 0x10000 ≤ 0x10ffff := by
  refine ⟨Nat.le_add_left _ _, ?_⟩
  have ha : r1 &&& 0x3ff ≤ 0x3ff := Nat.and_le_right
  have hb : r2 &&& 0x3ff ≤ 0x3ff := Nat.and_le_right
  have h1 : (r1 &&& 0x3ff) <<< 10 < 2 ^ 20 := by
    rw [Nat.shiftLeft_eq]
    have : (2 : Nat) ^ 20 = 1048576 := by norm_num
    omega
  have h2 : r2 &&& 0x3ff < 2 ^ 20 := by
    have : (2 : Nat) ^ 20 = 1048576 := by norm_num
    omega
  have h3 := Nat.or_lt_two_pow h1 h2
  have h4 : (2 : Nat) ^ 20 = 1048576 := by norm_num
  omega

/-- C6: in every decode step the bytes consumed from the cursor are exactly
the token's `rawBytes`: the input stream equals `rawBytes ++ rest`, so the
position advances by exactly `rawBytes.length`; peeked-but-rejected bytes
(the non-continuation byte after a UTF-8 leader, the non-low-surrogate
unit after a high surrogate) stay in `rest` for the next step. -/
theorem claim_C6_consumed_equals_rawBytes :
    (∀ s : List Nat, ∀ t : Token, (utf8Parse s).token = some t →
      s = t.Bytes ++ (utf8Parse s).rest) ∧
    (∀ bo : ByteOrder, ∀ s : List Nat, ∀ t : Token, (utf16Parse bo s).token = some t →
      s = t.Bytes ++ (utf16Parse bo s).rest) ∧
    (∀ bo : ByteOrder, ∀ s : List Nat, ∀ t : Token, (utf32Parse bo s).token = some t →
      s = t.Bytes ++ (utf32Parse bo s).rest) := by
  refine ⟨?_, ?_, ?_⟩
  · intro s t h
    rcases s with _ | ⟨b1, _ | ⟨b2, _ | ⟨b3, _ | ⟨b4, s4⟩⟩⟩⟩
    · simp [utf8Parse] at h
    all_goals simp only [utf8Parse] at h ⊢
    all_goals (try split_ifs at h ⊢) <;> obtain rfl := Option.some.inj h <;> simp
  · intro bo s t h
    rcases s with _ | ⟨b1, _ | ⟨b2, _ | ⟨c1, _ | ⟨c2, s4⟩⟩⟩⟩
    · simp [utf16Parse] at h
    all_goals simp only [utf16Parse] at h ⊢
    all_goals (try split_ifs at h ⊢) <;> obtain rfl := Option.some.inj h <;> simp
  · intro bo s t h
    rcases s with _ | ⟨b1, _ | ⟨b2, _ | ⟨b3, _ | ⟨b4, s4⟩⟩⟩⟩
    · simp [utf32Parse] at h
    all_goals simp only [utf32Parse] at h ⊢
    all_goals (try split_ifs at h ⊢) <;> obtain rfl := Option.some.inj h <;> simp

/-- C6 witness: the rejected continuation byte stays in the stream: 0xC0
followed by the non-continuation byte 0x61. -/
theorem claim_C6_consumed_equals_rawBytes_witness :
    [0xc0, 0x61] =
      (Token.Bytes ⟨0, [0xc0], TypeInvalidByteSequence⟩) ++
        (utf8Parse [0xc0, 0x61]).rest :=
  claim_C6_consumed_equals_rawBytes.1 [0xc0, 0x61]
    ⟨0, [0xc0], TypeInvalidByteSequence⟩ (by decide)

/-- C9: every token classified `InvalidByteSequence` or
`IncompleteSurrogatePair` carries the "no value" sentinel in its scalar
field, and that sentinel is the literal value 0 — the same value the
legitimate code point U+0000 decodes to — while a `RedundantEncoding`
token carries the value actually assembled from its bytes. -/
theorem claim_C9_scalar_sentinel :
    (∀ s : List Nat, ∀ t : Token, (utf8Parse s).token = some t →
      ((t.type = TypeInvalidByteSequence ∨ t.type = TypeIncompleteSurrogatePair) →
        t.Rune = 0) ∧
      (t.type = TypeRedundantEncoding → t.Rune = Int.ofNat (utf8Assemble t.Bytes))) ∧
    (∀ bo : ByteOrder, ∀ s : List Nat, ∀ t : Token, (utf16Parse bo s).token = some t →
      (t.type = TypeInvalidByteSequence ∨ t.type = TypeIncompleteSurrogatePair) →
        t.Rune = 0) ∧
    (∀ bo : ByteOrder, ∀ s : List Nat, ∀ t : Token, (utf32Parse bo s).token = some t →
      (t.type = TypeInvalidByteSequence ∨ t.type = TypeIncompleteSurrogatePair) →
        t.Rune = 0) ∧
    (utf8Parse [0x00]).token = some ⟨0, [0x00], TypeOk⟩ := by
  refine ⟨?_, ?_, ?_, by decide⟩
  · intro s t h
    rcases s with _ | ⟨b1, _ | ⟨b2, _ | ⟨b3, _ | ⟨b4, s4⟩⟩⟩⟩
    · simp [utf8Parse] at h
    all_goals simp only [utf8Parse] at h
    all_goals (try split_ifs at h) <;> obtain rfl := Option.some.inj h <;>
      simp [TypeOk, TypeInvalidByteSequence, TypeRedundantEncoding,
        TypeIncompleteSurrogatePair, utf8Assemble]
  · intro bo s t h
    rcases s with _ | ⟨b1, _ | ⟨b2, _ | ⟨c1, _ | ⟨c2, s4⟩⟩⟩⟩
    · simp [utf16Parse] at h
    all_goals simp only [utf16Parse] at h
    all_goals (try split_ifs at h) <;> obtain rfl := Option.some.inj h <;>
      simp [TypeOk, TypeInvalidByteSequence, TypeRedundantEncoding,
        TypeIncompleteSurrogatePair]
  · intro bo s t h
    rcases s with _ | ⟨b1, _ | ⟨b2, _ | ⟨b3, _ | ⟨b4, s4⟩⟩⟩⟩
    · simp [utf32Parse] at h
    all_goals simp only [utf32Parse] at h
    all_goals (try split_ifs at h) <;> obtain rfl := Option.some.inj h <;>
      simp [TypeOk, TypeInvalidByteSequence, TypeRedundantEncoding,
        TypeIncompleteSurrogatePair]

/-- C9 witness: the overlong token for C1 A1 keeps the assembled value. -/
theorem claim_C9_scalar_sentinel_witness :
    ((Token.type ⟨0x61, [0xc1, 0xa1], TypeRedundantEncoding⟩ = TypeInvalidByteSequence ∨
      Token.type ⟨0x61, [0xc1, 0xa1], TypeRedundantEncoding⟩ = TypeIncompleteSurrogatePair) →
      Token.Rune ⟨0x61, [0xc1, 0xa1], TypeRedundantEncoding⟩ = 0) ∧
    (Token.type ⟨0x61, [0xc1, 0xa1], TypeRedundantEncoding⟩ = TypeRedundantEncoding →
      Token.Rune ⟨0x61, [0xc1, 0xa1], TypeRedundantEncoding⟩ =
        Int.ofNat (utf8Assemble (Token.Bytes ⟨0x61, [0xc1, 0xa1], TypeRedundantEncoding⟩))) :=
  claim_C9_scalar_sentinel.1 [0xc1, 0xa1]
    ⟨0x61, [0xc1, 0xa1], TypeRedundantEncoding⟩ (by decide)

/-- C10: every `Ok` token of the UTF-16 decoder (over genuine bytes) has a
scalar in 0x0000–0x10FFFF outside the surrogate range, and when the first
unit is a surrogate an `Ok` token can only arise from a full 4-byte pair,
never from the lone unit. -/
theorem claim_C10_utf16_ok_range :
    (∀ bo : ByteOrder, ∀ s : List Nat, ∀ t : Token, (∀ b ∈ s, b < 256) →
      (utf16Parse bo s).token = some t → t.type = TypeOk →
      0 ≤ t.Rune ∧ t.Rune ≤ 0x10ffff ∧ ¬(0xd800 ≤ t.Rune ∧ t.Rune ≤ 0xdfff)) ∧
    (∀ bo : ByteOrder, ∀ b1 b2 : Nat, ∀ rest : List Nat, ∀ t : Token,
      isHighSurrogate (bo.Uint16 b1 b2) ∨ isLowSurrogate (bo.Uint16 b1 b2) →
      (utf16Parse bo (b1 :: b2 :: rest)).token = some t → t.type = TypeOk →
      t.Bytes.length = 4) := by
  constructor
  · intro bo s t hb h hok
    rcases s with _ | ⟨b1, _ | ⟨b2, _ | ⟨c1, _ | ⟨c2, s4⟩⟩⟩⟩
    · simp [utf16Parse] at h
    · obtain rfl := Option.some.inj h
      simp [TypeInvalidByteSequence, TypeOk] at hok
    · have hb1 : b1 < 256 := hb b1 (by simp)
      have hb2 : b2 < 256 := hb b2 (by simp)
      simp only [utf16Parse] at h
      split_ifs at h with hh hl
      · obtain rfl := Option.some.inj h
        simp [TypeIncompleteSurrogatePair, TypeOk] at hok
      · obtain rfl := Option.some.inj h
        simp [TypeIncompleteSurrogatePair, TypeOk] at hok
      · obtain rfl := Option.some.inj h
        have hu := Uint16_lt bo hb1 hb2
        simp only [isHighSurrogate] at hh
        simp only [isLowSurrogate] at hl
        simp only [Int.ofNat_eq_coe]
        omega
    · have hb1 : b1 < 256 := hb b1 (by simp)
      have hb2 : b2 < 256 := hb b2 (by simp)
      simp only [utf16Parse] at h
      split_ifs at h with hh hl
      · obtain rfl := Option.some.inj h
        simp [TypeIncompleteSurrogatePair, TypeOk] at hok
      · obtain rfl := Option.some.inj h
        simp [TypeIncompleteSurrogatePair, TypeOk] at hok
      · obtain rfl := Option.some.inj h
        have hu := Uint16_lt bo hb1 hb2
        simp only [isHighSurrogate] at hh
        simp only [isLowSurrogate] at hl
        simp only [Int.ofNat_eq_coe]
        omega
    · have hb1 : b1 < 256 := hb b1 (by simp)
      have hb2 : b2 < 256 := hb b2 (by simp)
      simp only [utf16Parse] at h
      split_ifs at h with hh hl hl2
      · obtain rfl := Option.some.inj h
        have hp := pairScalar_bounds (bo.Uint16 b1 b2) (bo.Uint16 c1 c2)
        simp only [Int.ofNat_eq_coe]
        omega
      · obtain rfl := Option.some.inj h
        simp [TypeIncompleteSurrogatePair, TypeOk] at hok
      · obtain rfl := Option.some.inj h
        simp [TypeIncompleteSurrogatePair, TypeOk] at hok
      · obtain rfl := Option.some.inj h
        have hu := Uint16_lt bo hb1 hb2
        simp only [isHighSurrogate] at hh
        simp only [isLowSurrogate] at hl2
        simp only [Int.ofNat_eq_coe]
        omega
  · intro bo b1 b2 rest t hsur h hok
    rcases rest with _ | ⟨c1, _ | ⟨c2, s4⟩⟩
    · simp only [utf16Parse] at h
      split_ifs at h with hh hl
      · obtain rfl := Option.some.inj h
        simp [TypeIncompleteSurrogatePair, TypeOk] at hok
      · obtain rfl := Option.some.inj h
        simp [TypeIncompleteSurrogatePair, TypeOk] at hok
      · rcases hsur with hs | hs
        · exact absurd hs hh
        · exact absurd hs hl
    · simp only [utf16Parse] at h
      split_ifs at h with hh hl
      · obtain rfl := Option.some.inj h
        simp [TypeIncompleteSurrogatePair, TypeOk] at hok
      · obtain rfl := Option.some.inj h
        simp [TypeIncompleteSurrogatePair, TypeOk] at hok
      · rcases hsur with hs | hs
        · exact absurd hs hh
        · exact absurd hs hl
    · simp only [utf16Parse] at h
      split_ifs at h with hh hl hl2
      · obtain rfl := Option.some.inj h
        simp
      · obtain rfl := Option.some.inj h
        simp [TypeIncompleteSurrogatePair, TypeOk] at hok
      · obtain rfl := Option.some.inj h
        simp [TypeIncompleteSurrogatePair, TypeOk] at hok
      · rcases hsur with hs | hs
        · exact absurd hs hh
        · exact absurd hs hl2

/-- C10 witness: the ordinary unit 00 61 (big-endian) yields an in-range,
non-surrogate scalar. -/
theorem claim_C10_utf16_ok_range_witness :
    0 ≤ Token.Rune ⟨0x61, [0x00, 0x61], TypeOk⟩ ∧
    Token.Rune ⟨0x61, [0x00, 0x61], TypeOk⟩ ≤ 0x10ffff ∧
    ¬(0xd800 ≤ Token.Rune ⟨0x61, [0x00, 0x61], TypeOk⟩ ∧
      Token.Rune ⟨0x61, [0x00, 0x61], TypeOk⟩ ≤ 0xdfff) :=
  claim_C10_utf16_ok_range.1 ByteOrder.BigEndian [0x00, 0x61]
    ⟨0x61, [0x00, 0x61], TypeOk⟩ (by decide) (by decide) (by decide)

end UnicodeCodepoint
